import Mathlib

/-
Verification of the session-state core of `src/calculadora.py`
(class `Calculadora`): number formatting, the bounded history log,
the operation counter, the arithmetic operation steps, and the
expression evaluator front-end (substitution of `M`/`U` and `^`).

Numeric values are modelled as a tagged type mirroring Python's dynamic
int/float distinction; float payloads are exact rationals (ℚ), the
standard shallow embedding of the source's real arithmetic.  User
input and the clock are external: operation steps take the already
resolved operands and the timestamp string as arguments.
-/

namespace Calculadora

/-- A Python number: either an `int` or a `float`.  Mirrors the source's
dynamic typing, where `_obter_numero` returns `int` for whole inputs and
`float` otherwise, and `_formatar_numero` branches on `isinstance(num, int)`.
Float payloads are exact rationals. -/
inductive PyNum where
  | int (n : Int)
  | float (q : ℚ)
deriving DecidableEq

/-- Numeric value of a `PyNum`. -/
def PyNum.toQ : PyNum → ℚ
  | .int n => (n : ℚ)
  | .float q => q

/-- Left-pad the decimal digits of `n` with zeros to width `k`
(the fixed-width fractional part of Python's `f"{num:.10f}"`). -/
def padDigitos (k : Nat) (n : Nat) : String :=
  let s := toString n
  String.mk (List.replicate (k - s.length) (Char.ofNat 48)) ++ s

/-- Strip all trailing occurrences of `c`, i.e. Python's `str.rstrip(c)`
for a single-character argument. -/
def rstripChar (c : Char) (l : List Char) : List Char :=
  (l.reverse.dropWhile (fun d => d == c)).reverse

/-- Round `p / q` (with `q > 0`) to the nearest integer, ties to even:
the rounding performed by Python's fixed-precision float formatting. -/
def arredondaMeioPar (p q : Nat) : Nat :=
  let n := p / q
  let r := p % q
  if q < 2 * r then n + 1
  else if 2 * r < q then n
  else if n % 2 = 0 then n else n + 1

/-- `a * 10^10` rounded half-to-even, for `a ≥ 0`: the scaled value behind
`f"{num:.10f}"` in `_formatar_numero` (line 137). -/
def dezCasas (a : ℚ) : Nat :=
  arredondaMeioPar (a.num.toNat * 10 ^ 10) a.den

/-- The non-integer branch of `_formatar_numero` for a non-negative value:
render with exactly 10 fractional digits (rounded half-to-even, as Python's
`f"{num:.10f}"` does), then `rstrip('0')` and `rstrip('.')`. -/
def formatarFloatPos (a : ℚ) : String :=
  let d := dezCasas a
  let corpo := toString (d / 10 ^ 10) ++ "." ++ padDigitos 10 (d % 10 ^ 10)
  String.mk (rstripChar (Char.ofNat 46) (rstripChar (Char.ofNat 48) corpo.toList))

/-- `_formatar_numero` (lines 129-137): an `int` is rendered as is; a float
that is mathematically an integer is rendered without decimal point;
otherwise at most 10 fractional digits, trailing zeros and trailing point
stripped. -/
def formatarNumero : PyNum → String
  | .int n => toString n
  | .float q =>
    if q.den = 1 then toString q.num
    else if q < 0 then "-" ++ formatarFloatPos (-q)
    else formatarFloatPos q

/-- Python `str()` of a non-negative non-integer float, modelled for values
whose decimal expansion terminates within 17 digits (every value reachable
through the calculator's decimal input does): integer part, point, fractional
digits without trailing zeros. -/
def pyStrFloatPos (a : ℚ) : String :=
  let ip := a.num.toNat / a.den
  let fr := a.num.toNat % a.den
  let ds := rstripChar (Char.ofNat 48) (padDigitos 17 (fr * 10 ^ 17 / a.den)).toList
  toString ip ++ "." ++ String.mk (if ds.isEmpty then [Char.ofNat 48] else ds)

/-- Python `str()` of a float: integral values render with a trailing `.0`
(`str(0.0) = "0.0"`), others with their decimal expansion. -/
def pyStrFloat (q : ℚ) : String :=
  if q.den = 1 then toString q.num ++ ".0"
  else if q < 0 then "-" ++ pyStrFloatPos (-q)
  else pyStrFloatPos q

/-- Python `str()` of a number, as used by `calcular_expressao` when
substituting `M` and `U` (lines 482-483). -/
def pyStr : PyNum → String
  | .int n => toString n
  | .float q => pyStrFloat q

/-- One history record (`_adicionar_ao_historico`, lines 80-85); the
timestamp string comes from the external clock. -/
structure Entrada where
  timestamp : String
  expressao : String
  resultado : PyNum
  tipo : String
deriving DecidableEq

/-- The mutable session state of class `Calculadora` (lines 31-34). -/
structure Estado where
  memoria : PyNum
  ultimoResultado : Option PyNum
  historico : List Entrada
  totalOperacoes : Nat
deriving DecidableEq

/-- `self._max_historico = 50` (line 35). -/
def maxHistorico : Nat := 50

/-- The state built by `__init__` (lines 31-34): memory `0.0` (a float),
no last result, empty history, zero operations. -/
def estadoInicial : Estado :=
  { memoria := .float 0, ultimoResultado := none, historico := [],
    totalOperacoes := 0 }

/-- `_adicionar_ao_historico` (lines 78-93): append the new entry, set the
last result, increment the counter, then pop the oldest entry if the
history now exceeds `_max_historico`. -/
def adicionarAoHistorico (st : Estado) (ts expressao : String)
    (resultado : PyNum) (tipo : String) : Estado :=
  let entrada : Entrada :=
    { timestamp := ts, expressao := expressao, resultado := resultado,
      tipo := tipo }
  let h := st.historico ++ [entrada]
  { st with
    historico := if maxHistorico < h.length then h.tail else h
    ultimoResultado := some resultado
    totalOperacoes := st.totalOperacoes + 1 }

/-- The data of one successful operation as it reaches
`_adicionar_ao_historico`. -/
structure OpDados where
  ts : String
  expressao : String
  resultado : PyNum
  tipo : String
deriving DecidableEq

/-- The history entry a given operation produces. -/
def entradaDe (d : OpDados) : Entrada :=
  { timestamp := d.ts, expressao := d.expressao, resultado := d.resultado,
    tipo := d.tipo }

/-- Run a sequence of successful operations through
`_adicionar_ao_historico`. -/
def adicionarTodos (st : Estado) (ops : List OpDados) : Estado :=
  ops.foldl (fun s d => adicionarAoHistorico s d.ts d.expressao d.resultado d.tipo) st

/-- The kind string of the `somar` operation (line 153). -/
def tipoSoma : String := "Soma"

/-- The kind string of the `dividir` operation (line 216). -/
def tipoDivisao : String := "Divisão"

/-- The kind string of the `resto_divisao` operation (line 241). -/
def tipoResto : String := "Resto Divisão"

/-- The kind string of the `fatorial` operation (line 327). -/
def tipoFatorial : String := "Fatorial"

/-- The kind string of the `calcular_expressao` operation (line 491). -/
def tipoExpressao : String := "Expressão"

/-- Python `+` on dynamically typed numbers: `int + int` stays `int`,
any float makes the result float. -/
def pyAdd : PyNum → PyNum → PyNum
  | .int m, .int n => .int (m + n)
  | a, b => .float (a.toQ + b.toQ)

/-- `somar` (lines 141-158) on already resolved operands: compute `a + b`,
build the display expression from the formatted operands, record it with
kind `Soma`.  Returns the new state and the result. -/
def somar (st : Estado) (a b : PyNum) (ts : String) : Estado × PyNum :=
  let resultado := pyAdd a b
  let expressao := formatarNumero a ++ " + " ++ formatarNumero b
  (adicionarAoHistorico st ts expressao resultado tipoSoma, resultado)

/-- The division-by-zero outcome of the divisor checks in `dividir`
(lines 208-209) and `resto_divisao` (lines 233-234). -/
inductive OpErro where
  | divisaoPorZero
deriving DecidableEq

/-- One attempt of `dividir` (lines 198-221) with resolved operands: a zero
denominator hits the error branch (line 208-209) and changes nothing;
otherwise `a / b` (a Python float) is recorded with kind `Divisão`. -/
def dividir (st : Estado) (a b : PyNum) (ts : String) :
    Estado × Except OpErro PyNum :=
  if b.toQ = 0 then (st, .error .divisaoPorZero)
  else
    let resultado := PyNum.float (a.toQ / b.toQ)
    let expressao := formatarNumero a ++ " ÷ " ++ formatarNumero b
    (adicionarAoHistorico st ts expressao resultado tipoDivisao, .ok resultado)

/-- One attempt of `resto_divisao` (lines 223-246) with resolved integer
operands: a zero divisor hits the error branch (lines 233-234) and changes
nothing; otherwise Python's `%` (remainder with the sign of the divisor,
i.e. `Int.fmod`) is recorded with kind `Resto Divisão`. -/
def restoDivisao (st : Estado) (a b : Int) (ts : String) :
    Estado × Except OpErro PyNum :=
  if b = 0 then (st, .error .divisaoPorZero)
  else
    let resultado := PyNum.int (Int.fmod a b)
    let expressao := toString a ++ " % " ++ toString b
    (adicionarAoHistorico st ts expressao resultado tipoResto, .ok resultado)

/-- Outcome of one pass of the input loop of `fatorial` (lines 315-322):
a negative input prints an error and re-prompts; an input above 20 prints
the size warning and re-prompts as well (the `elif` branch has no `break`);
otherwise the loop exits and the factorial is computed and recorded. -/
inductive FatorialSaida where
  | erroNegativo
  | avisoMuitoGrande
  | sucesso (st : Estado) (valor : Nat)

/-- `fatorial` (lines 309-332) on one resolved input `n`: mirrors the
validation loop's branches and, on exit, `math.factorial(n)` recorded with
kind `Fatorial`. -/
def fatorialPasso (st : Estado) (n : Int) (ts : String) : FatorialSaida :=
  if n < 0 then .erroNegativo
  else if 20 < n then .avisoMuitoGrande
  else
    let v := Nat.factorial n.toNat
    let expressao := toString n ++ "!"
    .sucesso (adicionarAoHistorico st ts expressao (.int v) tipoFatorial) v

/-- Whether a `fatorial` pass reached the computation. -/
def FatorialSaida.ehSucesso : FatorialSaida → Bool
  | .sucesso _ _ => true
  | _ => false

/-- The state-changing requests the main loop can issue against the session
state: a successful operation (any of the arithmetic entry points, all of
which funnel through `_adicionar_ao_historico`), `limpar_historico`
(lines 541-545) and `resetar_calculadora` (lines 547-554). -/
inductive Acao where
  | operacao (dados : OpDados)
  | limparHistorico
  | resetar
deriving DecidableEq

/-- Effect of one request on the session state: `limpar_historico` clears
only the history list; `resetar_calculadora` restores every field of
`__init__`. -/
def aplicarAcao (st : Estado) : Acao → Estado
  | .operacao d => adicionarAoHistorico st d.ts d.expressao d.resultado d.tipo
  | .limparHistorico => { st with historico := [] }
  | .resetar => estadoInicial

/-- Run a sequence of requests from a starting state. -/
def aplicarAcoes (st : Estado) (acoes : List Acao) : Estado :=
  acoes.foldl aplicarAcao st

/-- Whether a request is a successful operation. -/
def Acao.ehOperacao : Acao → Bool
  | .operacao _ => true
  | _ => false

/-- Whether a request is the full reset. -/
def Acao.ehReset : Acao → Bool
  | .resetar => true
  | _ => false

/-- The specification-side counter: how many successful operations occur
after the last full reset of the request sequence. -/
def operacoesDesdeReset (acoes : List Acao) : Nat :=
  (acoes.reverse.takeWhile (fun a => !a.ehReset)).countP Acao.ehOperacao

/-- Python's single-character `str.replace`, character list form: every
occurrence of `c` becomes `rep`, scanning left to right. -/
def substChar (c : Char) (rep : List Char) : List Char → List Char
  | [] => []
  | d :: resto => (if d = c then rep else [d]) ++ substChar c rep resto

/-- Python's single-character `str.replace` on strings, as used for the
`M`, `U` and `^` substitutions of `calcular_expressao` (lines 482-486). -/
def substituirChar (c : Char) (rep s : String) : String :=
  String.mk (substChar c rep.toList s.toList)

/-- Python's `str.replace("**", "^")`: scan left to right, turning each
non-overlapping `**` pair back into `^` (line 491). -/
def trocaPotencia : List Char → List Char
  | [] => []
  | [d] => [d]
  | d :: e :: resto =>
    if d = '*' ∧ e = '*' then '^' :: trocaPotencia resto
    else d :: trocaPotencia (e :: resto)

/-- `expressao.replace("**", "^")` on strings. -/
def restaurarPotencia (s : String) : String :=
  String.mk (trocaPotencia s.toList)

/-- The string substituted for `U`: `str(ultimo_resultado)` when a result
exists, else `str(0)` (line 483). -/
def pyStrUltimo : Option PyNum → String
  | none => "0"
  | some v => pyStr v

/-- Errors of expression evaluation: empty input (line 475), division by
zero (line 497), anything else invalid (line 499). -/
inductive ErroExpressao where
  | vazia
  | divisaoPorZero
  | invalida
deriving DecidableEq

/-- Tokens of the arithmetic expression grammar. -/
inductive Token where
  | numero (q : ℚ)
  | mais
  | menos
  | vezes
  | barra
  | porcento
  | potencia
  | abre
  | fecha
deriving DecidableEq

/-- Numeric value of a digit run. -/
def valorDigitos (l : List Char) : Nat :=
  l.foldl (fun acc c => acc * 10 + (c.toNat - 48)) 0

/-- Modelled from the spec: the lexical layer of the host-language
expression evaluator (`eval`, line 489, not part of this repository),
restricted per spec §4.4 to numbers (integer or decimal), the operators
`+ - * / % **` and parentheses; any other character is invalid.  The fuel
argument bounds recursion; `length + 1` always suffices since every step
consumes at least one character. -/
def lexer : Nat → List Char → Option (List Token)
  | 0, _ => none
  | _, [] => some []
  | fuel + 1, c :: resto =>
    if c = ' ' then lexer fuel resto
    else if c = '+' then (lexer fuel resto).map (Token.mais :: ·)
    else if c = '-' then (lexer fuel resto).map (Token.menos :: ·)
    else if c = '*' then
      match resto with
      | '*' :: resto2 => (lexer fuel resto2).map (Token.potencia :: ·)
      | _ => (lexer fuel resto).map (Token.vezes :: ·)
    else if c = '/' then (lexer fuel resto).map (Token.barra :: ·)
    else if c = '%' then (lexer fuel resto).map (Token.porcento :: ·)
    else if c = '(' then (lexer fuel resto).map (Token.abre :: ·)
    else if c = ')' then (lexer fuel resto).map (Token.fecha :: ·)
    else if c.isDigit then
      let inteiros := (c :: resto).takeWhile Char.isDigit
      let resto2 := (c :: resto).dropWhile Char.isDigit
      match resto2 with
      | '.' :: resto3 =>
        let fracao := resto3.takeWhile Char.isDigit
        let resto4 := resto3.dropWhile Char.isDigit
        let v : ℚ := (valorDigitos inteiros : ℚ)
          + (valorDigitos fracao : ℚ) / ((10 : ℚ) ^ fracao.length)
        (lexer fuel resto4).map (Token.numero v :: ·)
      | _ => (lexer fuel resto2).map (Token.numero (valorDigitos inteiros) :: ·)
    else none

/-- Modelled from the spec: division, erroring on a zero divisor (§4.4
step 5). -/
def opDiv (a b : ℚ) : Except ErroExpressao ℚ :=
  if b = 0 then .error .divisaoPorZero else .ok (a / b)

/-- Modelled from the spec: Python's `%` on numbers (`a - b * (a // b)`,
floor division), erroring on a zero divisor (§4.4 step 5). -/
def opMod (a b : ℚ) : Except ErroExpressao ℚ :=
  if b = 0 then .error .divisaoPorZero else .ok (a - b * (⌊a / b⌋ : ℚ))

/-- Modelled from the spec: exponentiation `**`.  Integer exponents are
exact over ℚ; a zero base with a negative exponent is a division by zero;
a fractional exponent leaves ℚ and is treated as invalid (a model limit,
unreachable in the claims). -/
def opPot (a b : ℚ) : Except ErroExpressao ℚ :=
  if b.den = 1 then
    if a = 0 ∧ b.num < 0 then .error .divisaoPorZero
    else .ok (a ^ b.num)
  else .error .invalida

mutual

/-- Modelled from the spec: additive level of the infix grammar (§4.4
step 4), left associative. -/
def parseExpr : Nat → List Token → Except ErroExpressao (ℚ × List Token)
  | 0, _ => .error .invalida
  | fuel + 1, ts => do
    let (v, resto) ← parseTermo fuel ts
    parseExprResto fuel v resto

/-- Remaining `+`/`-` chain after a first term. -/
def parseExprResto : Nat → ℚ → List Token →
    Except ErroExpressao (ℚ × List Token)
  | 0, _, _ => .error .invalida
  | fuel + 1, acc, Token.mais :: ts => do
    let (v, resto) ← parseTermo fuel ts
    parseExprResto fuel (acc + v) resto
  | fuel + 1, acc, Token.menos :: ts => do
    let (v, resto) ← parseTermo fuel ts
    parseExprResto fuel (acc - v) resto
  | _ + 1, acc, ts => .ok (acc, ts)

/-- Modelled from the spec: multiplicative level (`* / %`), left
associative. -/
def parseTermo : Nat → List Token → Except ErroExpressao (ℚ × List Token)
  | 0, _ => .error .invalida
  | fuel + 1, ts => do
    let (v, resto) ← parsePotencia fuel ts
    parseTermoResto fuel v resto

/-- Remaining `*`/`/`/`%` chain after a first factor. -/
def parseTermoResto : Nat → ℚ → List Token →
    Except ErroExpressao (ℚ × List Token)
  | 0, _, _ => .error .invalida
  | fuel + 1, acc, Token.vezes :: ts => do
    let (v, resto) ← parsePotencia fuel ts
    parseTermoResto fuel (acc * v) resto
  | fuel + 1, acc, Token.barra :: ts => do
    let (v, resto) ← parsePotencia fuel ts
    let r ← opDiv acc v
    parseTermoResto fuel r resto
  | fuel + 1, acc, Token.porcento :: ts => do
    let (v, resto) ← parsePotencia fuel ts
    let r ← opMod acc v
    parseTermoResto fuel r resto
  | _ + 1, acc, ts => .ok (acc, ts)

/-- Modelled from the spec: exponentiation level (`**`). -/
def parsePotencia : Nat → List Token → Except ErroExpressao (ℚ × List Token)
  | 0, _ => .error .invalida
  | fuel + 1, ts => do
    let (v, resto) ← parseAtomo fuel ts
    parsePotenciaResto fuel v resto

/-- Remaining `**` chain after a first base. -/
def parsePotenciaResto : Nat → ℚ → List Token →
    Except ErroExpressao (ℚ × List Token)
  | 0, _, _ => .error .invalida
  | fuel + 1, acc, Token.potencia :: ts => do
    let (v, resto) ← parseAtomo fuel ts
    let r ← opPot acc v
    parsePotenciaResto fuel r resto
  | _ + 1, acc, ts => .ok (acc, ts)

/-- Modelled from the spec: atoms are numbers, parenthesised expressions
and unary minus. -/
def parseAtomo : Nat → List Token → Except ErroExpressao (ℚ × List Token)
  | 0, _ => .error .invalida
  | _ + 1, Token.numero q :: ts => .ok (q, ts)
  | fuel + 1, Token.menos :: ts => do
    let (v, resto) ← parseAtomo fuel ts
    .ok (-v, resto)
  | fuel + 1, Token.abre :: ts => do
    let (v, resto) ← parseExpr fuel ts
    match resto with
    | Token.fecha :: resto2 => .ok (v, resto2)
    | _ => .error .invalida
  | _ + 1, _ => .error .invalida

end

/-- Modelled from the spec: the host-language evaluator `eval(expressao)`
(line 489, not part of this repository), per spec §4.4 step 4: lex, parse
the full token list, reject leftovers.  The fuel bounds are generous for
every input the claims touch; exhausted fuel reports an invalid
expression. -/
def avaliar (s : String) : Except ErroExpressao ℚ :=
  match lexer (s.toList.length + 1) s.toList with
  | none => .error .invalida
  | some ts =>
    match parseExpr (4 * ts.length + 8) ts with
    | .error e => .error e
    | .ok (v, []) => .ok v
    | .ok (_, _ :: _) => .error .invalida

/-- `calcular_expressao` (lines 463-502) on one input string: strip, reject
the empty input, substitute `M` with `str(memoria)`, then `U` with
`str(ultimo_resultado)` (or `str(0)`), then `^` with `**`; evaluate; on
success record the substituted text with `**` turned back into `^` under
kind `Expressão`; on any failure change nothing.  The evaluator's numeric
result is stored as a float (the model collapses Python's int/float result
distinction, which no claim observes). -/
def calcularExpressao (st : Estado) (entrada ts : String) :
    Estado × Except ErroExpressao ℚ :=
  let texto := entrada.trim
  if texto = "" then (st, .error .vazia)
  else
    let substituida :=
      substituirChar '^' "**"
        (substituirChar 'U' (pyStrUltimo st.ultimoResultado)
          (substituirChar 'M' (pyStr st.memoria) texto))
    match avaliar substituida with
    | .error e => (st, .error e)
    | .ok v =>
      (adicionarAoHistorico st ts (restaurarPotencia substituida) (.float v)
        tipoExpressao, .ok v)

/-- Whether an evaluation outcome is a success. -/
def ehOk : Except ErroExpressao ℚ → Bool
  | .ok _ => true
  | .error _ => false

instance : DecidableEq (Except ErroExpressao ℚ) := fun a b =>
  match a, b with
  | .ok x, .ok y =>
    if h : x = y then isTrue (congrArg Except.ok h)
    else isFalse (fun hh => h (Except.ok.inj hh))
  | .error x, .error y =>
    if h : x = y then isTrue (congrArg Except.error h)
    else isFalse (fun hh => h (Except.error.inj hh))
  | .ok _, .error _ => isFalse (fun hh => Except.noConfusion hh)
  | .error _, .ok _ => isFalse (fun hh => Except.noConfusion hh)

/-- The per-kind tally of `exibir_estatisticas` (lines 409-412): a Python
dict built by iterating the history, so keys appear in first-seen order. -/
def incrementaTipo : List (String × Nat) → String → List (String × Nat)
  | [], t => [(t, 1)]
  | (k, v) :: resto, t =>
    if k = t then (k, v + 1) :: resto else (k, v) :: incrementaTipo resto t

/-- Build the per-kind tally of the given kind list, first-seen order. -/
def contarTipos (tipos : List String) : List (String × Nat) :=
  tipos.foldl incrementaTipo []

/-- Stable insertion keeping counts in descending order: a new item goes
after every item with a count greater than or equal to its own, which is
exactly where Python's stable `sorted(..., key=count, reverse=True)`
(line 415) puts it. -/
def insereDesc (x : String × Nat) : List (String × Nat) → List (String × Nat)
  | [] => [x]
  | y :: resto => if x.2 ≤ y.2 then y :: insereDesc x resto else x :: y :: resto

/-- Stable sort by descending count, mirroring
`sorted(tipos.items(), key=lambda x: x[1], reverse=True)` (line 415). -/
def ordenaDesc (l : List (String × Nat)) : List (String × Nat) :=
  l.foldl (fun acc x => insereDesc x acc) []

/-- The `countsByKind` listing of `exibir_estatisticas` (lines 396-418):
tally the current history by kind, then sort by descending count. -/
def operacoesPorTipo (hist : List Entrada) : List (String × Nat) :=
  ordenaDesc (contarTipos (hist.map Entrada.tipo))

/-- Total of all counts in a tally. -/
def somaContagens (l : List (String × Nat)) : Nat :=
  (l.map Prod.snd).sum

/-! Theorems. -/

theorem tail_append_unitario {α : Type} (l : List α) (e : α) (h : l ≠ []) :
    (l ++ [e]).tail = l.tail ++ [e] := by
  cases l with
  | nil => exact absurd rfl h
  | cons x xs => rfl

theorem historico_adicionar (st : Estado) (ts ex : String) (r : PyNum)
    (t : String) (h : st.historico.length ≤ maxHistorico) :
    (adicionarAoHistorico st ts ex r t).historico
      = (if st.historico.length < maxHistorico then st.historico
         else st.historico.tail)
        ++ [{ timestamp := ts, expressao := ex, resultado := r, tipo := t }] := by
  simp only [adicionarAoHistorico, List.length_append, List.length_cons,
    List.length_nil]
  split_ifs with h1 h2 h2
  · exact absurd h1 (by omega)
  · refine tail_append_unitario _ _ ?_
    intro hnil
    rw [hnil] at h1
    simp [maxHistorico] at h1
  · rfl
  · exact absurd (by omega : st.historico.length < maxHistorico) h2

theorem length_historico_adicionar (st : Estado) (ts ex : String) (r : PyNum)
    (t : String) (h : st.historico.length ≤ maxHistorico) :
    (adicionarAoHistorico st ts ex r t).historico.length ≤ maxHistorico := by
  have hm : 1 ≤ maxHistorico := by decide
  rw [historico_adicionar st ts ex r t h]
  rw [List.length_append, List.length_cons, List.length_nil]
  split_ifs with h1
  · omega
  · rw [List.length_tail]; omega

theorem ultimo_adicionar (st : Estado) (ts ex : String) (r : PyNum)
    (t : String) :
    (adicionarAoHistorico st ts ex r t).ultimoResultado = some r := rfl

theorem total_adicionar (st : Estado) (ts ex : String) (r : PyNum)
    (t : String) :
    (adicionarAoHistorico st ts ex r t).totalOperacoes
      = st.totalOperacoes + 1 := rfl

theorem adicionarTodos_concat (st : Estado) (ops : List OpDados) (d : OpDados) :
    adicionarTodos st (ops ++ [d])
      = adicionarAoHistorico (adicionarTodos st ops) d.ts d.expressao
          d.resultado d.tipo := by
  simp [adicionarTodos, List.foldl_append]

theorem historico_adicionarTodos (ops : List OpDados) :
    (adicionarTodos estadoInicial ops).historico
      = (ops.map entradaDe).drop (ops.length - maxHistorico) := by
  have hm : 1 ≤ maxHistorico := by decide
  induction ops using List.reverseRecOn with
  | nil => rfl
  | append_singleton ops d ih =>
    rw [adicionarTodos_concat]
    have hlen : (ops.map entradaDe).length = ops.length := List.length_map ops _
    have hld : (adicionarTodos estadoInicial ops).historico.length
        = ops.length - (ops.length - maxHistorico) := by
      rw [ih, List.length_drop, hlen]
    have hbound : (adicionarTodos estadoInicial ops).historico.length
        ≤ maxHistorico := by omega
    rw [historico_adicionar _ _ _ _ _ hbound, ih]
    have harr : (ops ++ [d]).map entradaDe
        = ops.map entradaDe ++ [entradaDe d] := by simp
    have hlarr : (ops ++ [d]).length = ops.length + 1 := by simp
    rw [ih] at hld
    by_cases hlt : ops.length < maxHistorico
    · have h0 : ops.length - maxHistorico = 0 := by omega
      have h0' : (ops ++ [d]).length - maxHistorico = 0 := by omega
      rw [if_pos (by omega), harr, h0, h0', List.drop_zero, List.drop_zero]
      simp [entradaDe]
    · have hkk : ops.length - (ops.length - maxHistorico) = maxHistorico := by
        omega
      rw [hkk] at hld
      rw [if_neg (by omega), List.tail_drop, harr,
        List.drop_append_of_le_length (by omega)]
      have hidx : (ops ++ [d]).length - maxHistorico
          = (ops.length - maxHistorico) + 1 := by
        rw [hlarr]; omega
      rw [hidx]
      simp [entradaDe]

/-- C1: the history log is bounded by 50 entries: any append from a state
within the bound stays within the bound, and running any sequence of `n`
successful operations from the initial state leaves exactly the last
`min n 50` entries in insertion order (`drop (n - 50)`): in particular 60
appends leave entries 11..60, the single oldest entry having been evicted
on each overflowing append. -/
theorem c1_historico_limitado :
    (∀ (st : Estado) (ts ex : String) (r : PyNum) (t : String),
        st.historico.length ≤ maxHistorico →
        (adicionarAoHistorico st ts ex r t).historico.length ≤ maxHistorico)
    ∧ ∀ ops : List OpDados,
        (adicionarTodos estadoInicial ops).historico
          = (ops.map entradaDe).drop (ops.length - maxHistorico) :=
  ⟨length_historico_adicionar, historico_adicionarTodos⟩

/-- Witness for C1: one concrete append keeps the bound, and 60 concrete
appends leave exactly the last 50 entries. -/
theorem c1_historico_limitado_witness :
    (adicionarAoHistorico estadoInicial "t" "1 + 1" (.int 2) tipoSoma).historico.length
      ≤ maxHistorico
    ∧ (adicionarTodos estadoInicial
          (List.replicate 60 (⟨"t", "1 + 1", .int 2, tipoSoma⟩ : OpDados))).historico
        = ((List.replicate 60 (⟨"t", "1 + 1", .int 2, tipoSoma⟩ : OpDados)).map
            entradaDe).drop 10 :=
  ⟨c1_historico_limitado.1 estadoInicial "t" "1 + 1" (.int 2) tipoSoma
      (by decide),
   c1_historico_limitado.2 _⟩

/-- C2: starting from the initial session, `total_operacoes` always equals
the number of successful operations performed after the last full reset:
each operation adds exactly 1 (even when it evicts a history entry),
`limpar_historico` leaves the counter alone, and `resetar_calculadora`
returns it to 0. -/
theorem c2_contador_operacoes (acoes : List Acao) :
    (aplicarAcoes estadoInicial acoes).totalOperacoes
      = operacoesDesdeReset acoes := by
  induction acoes using List.reverseRecOn with
  | nil => rfl
  | append_singleton acoes a ih =>
    have hfold : aplicarAcoes estadoInicial (acoes ++ [a])
        = aplicarAcao (aplicarAcoes estadoInicial acoes) a := by
      simp [aplicarAcoes, List.foldl_append]
    have hrev : (acoes ++ [a]).reverse = a :: acoes.reverse := by simp
    cases a with
    | operacao d =>
      rw [hfold]
      simp only [aplicarAcao, total_adicionar, ih]
      simp [operacoesDesdeReset, hrev, Acao.ehReset, Acao.ehOperacao,
        List.takeWhile_cons, List.countP_cons]
    | limparHistorico =>
      rw [hfold]
      have : (aplicarAcao (aplicarAcoes estadoInicial acoes)
          Acao.limparHistorico).totalOperacoes
          = (aplicarAcoes estadoInicial acoes).totalOperacoes := rfl
      rw [this, ih]
      simp [operacoesDesdeReset, hrev, Acao.ehReset, Acao.ehOperacao,
        List.takeWhile_cons, List.countP_cons]
    | resetar =>
      rw [hfold]
      have : (aplicarAcao (aplicarAcoes estadoInicial acoes)
          Acao.resetar).totalOperacoes = 0 := rfl
      rw [this]
      simp [operacoesDesdeReset, hrev, Acao.ehReset, List.takeWhile_cons]

/-- C3: a successful `somar` on resolved operands produces the numeric
value `a + b`, appends exactly one history entry (with the formatted
operands joined by ` + ` and kind `Soma`, the oldest entry leaving first
when at capacity), sets the last result to that value and increments the
counter by exactly 1; and every operation that reaches
`_adicionar_ao_historico` — which all successful operations do — satisfies
the same append-one/set-last-result/increment-by-1 postcondition. -/
theorem c3_soma_postcondicao (st : Estado) (a b : PyNum) (ts : String)
    (h : st.historico.length ≤ maxHistorico) :
    ((somar st a b ts).2).toQ = a.toQ + b.toQ
    ∧ (somar st a b ts).1.historico
        = (if st.historico.length < maxHistorico then st.historico
           else st.historico.tail)
          ++ [{ timestamp := ts,
                expressao := formatarNumero a ++ " + " ++ formatarNumero b,
                resultado := pyAdd a b, tipo := tipoSoma }]
    ∧ (somar st a b ts).1.ultimoResultado = some (pyAdd a b)
    ∧ (somar st a b ts).1.totalOperacoes = st.totalOperacoes + 1
    ∧ ∀ (st' : Estado) (ts' ex' : String) (r' : PyNum) (t' : String),
        (adicionarAoHistorico st' ts' ex' r' t').ultimoResultado = some r'
        ∧ (adicionarAoHistorico st' ts' ex' r' t').totalOperacoes
            = st'.totalOperacoes + 1
        ∧ (st'.historico.length ≤ maxHistorico →
            (adicionarAoHistorico st' ts' ex' r' t').historico
              = (if st'.historico.length < maxHistorico then st'.historico
                 else st'.historico.tail)
                ++ [{ timestamp := ts', expressao := ex', resultado := r',
                      tipo := t' }]) := by
  refine ⟨?_, historico_adicionar st ts _ _ _ h, rfl, rfl,
    fun st' ts' ex' r' t' =>
      ⟨rfl, rfl, historico_adicionar st' ts' ex' r' t'⟩⟩
  cases a with
  | int m => cases b with
    | int n => simp [somar, pyAdd, PyNum.toQ]
    | float q => simp [somar, pyAdd, PyNum.toQ]
  | float p => cases b with
    | int n => simp [somar, pyAdd, PyNum.toQ]
    | float q => simp [somar, pyAdd, PyNum.toQ]

/-- Witness for C3: summing 2 and 3 from the initial state yields value 5,
history `["2 + 3"]` with kind `Soma`, last result 5 and counter 1. -/
theorem c3_soma_postcondicao_witness :
    ((somar estadoInicial (.int 2) (.int 3) "t").2).toQ
        = (PyNum.int 2).toQ + (PyNum.int 3).toQ
    ∧ (somar estadoInicial (.int 2) (.int 3) "t").1.totalOperacoes
        = estadoInicial.totalOperacoes + 1 :=
  ⟨(c3_soma_postcondicao estadoInicial (.int 2) (.int 3) "t" (by decide)).1,
   (c3_soma_postcondicao estadoInicial (.int 2) (.int 3) "t"
      (by decide)).2.2.2.1⟩

/-- C4: a `dividir` attempt whose denominator is numerically zero, and a
`resto_divisao` attempt whose divisor is zero, return the division-by-zero
error and leave the state — history, last result, counter — exactly as it
was. -/
theorem c4_divisao_por_zero (st : Estado) (a b : PyNum) (a' b' : Int)
    (ts : String) (hb : b.toQ = 0) (hb' : b' = 0) :
    dividir st a b ts = (st, .error .divisaoPorZero)
    ∧ restoDivisao st a' b' ts = (st, .error .divisaoPorZero) := by
  constructor
  · simp [dividir, hb]
  · simp [restoDivisao, hb']

/-- Witness for C4: dividing 5 by the float 0 and taking 5 mod 0 from the
initial state both error out and leave the initial state untouched. -/
theorem c4_divisao_por_zero_witness :
    dividir estadoInicial (.int 5) (.float 0) "t"
        = (estadoInicial, .error .divisaoPorZero)
    ∧ restoDivisao estadoInicial 5 0 "t"
        = (estadoInicial, .error .divisaoPorZero) :=
  c4_divisao_por_zero estadoInicial (.int 5) (.float 0) 5 0 "t"
    (by decide) rfl

/-- C5 counterexample: the claim says `Factorial(21)` succeeds with only an
advisory warning, but the `n > 20` branch of the input loop (lines 319-320)
has no `break`: it prints the warning and re-prompts, so the pass over
input 21 is not a success and computes nothing. -/
theorem c5_fatorial_contra :
    (fatorialPasso estadoInicial 21 "t").ehSucesso = false := rfl

/-- C5 as amended: `fatorial` rejects a negative input with the
negative-input error, rejects any input above 20 with the too-large
warning — re-prompting without computing, so inputs above 20 never
succeed — and for 0 ≤ n ≤ 20 computes `n!` and records it. -/
theorem c5_fatorial_corrigido (st : Estado) (n : Int) (ts : String) :
    (n < 0 → fatorialPasso st n ts = .erroNegativo)
    ∧ (20 < n → fatorialPasso st n ts = .avisoMuitoGrande)
    ∧ (0 ≤ n → n ≤ 20 →
        fatorialPasso st n ts
          = .sucesso
              (adicionarAoHistorico st ts (toString n ++ "!")
                (.int (Nat.factorial n.toNat)) tipoFatorial)
              (Nat.factorial n.toNat)) := by
  refine ⟨fun h => ?_, fun h => ?_, fun h0 h20 => ?_⟩
  · simp [fatorialPasso, h]
  · rw [fatorialPasso, if_neg (by omega), if_pos h]
  · rw [fatorialPasso, if_neg (by omega), if_neg (by omega)]

/-- Witness for C5: input 5 passes validation and yields `5! = 120`. -/
theorem c5_fatorial_corrigido_witness :
    fatorialPasso estadoInicial 5 "t"
      = .sucesso
          (adicionarAoHistorico estadoInicial "t" (toString (5 : Int) ++ "!")
            (.int (Nat.factorial (Int.toNat 5))) tipoFatorial)
          (Nat.factorial (Int.toNat 5)) :=
  (c5_fatorial_corrigido estadoInicial 5 "t").2.2 (by decide) (by decide)

theorem substChar_append (c : Char) (rep l1 l2 : List Char) :
    substChar c rep (l1 ++ l2) = substChar c rep l1 ++ substChar c rep l2 := by
  induction l1 with
  | nil => rfl
  | cons d resto ih => simp [substChar, ih]

/-- C6: the substitutions of `calcular_expressao` are blind literal-text
replacements: around any occurrence of the replaced character — wherever it
sits in the string, including inside other content — the replacement string
is spliced in, with the rest of the string substituted independently.  This
single statement covers the `M`, `U` and `^` passes (lines 482-486), which
are instances at `c = 'M'`, `'U'` and `'^'`.  And concretely, with memory
holding 7, evaluating `M + 1` substitutes to `7 + 1` and yields 8, for any
timestamp. -/
theorem c6_substituicao_cega :
    (∀ (c : Char) (rep s t : String),
        substituirChar c rep (s ++ String.singleton c ++ t)
          = substituirChar c rep s ++ rep ++ substituirChar c rep t)
    ∧ ∀ ts : String,
        (calcularExpressao { estadoInicial with memoria := .int 7 } "M + 1"
            ts).2 = .ok 8 := by
  constructor
  · intro c rep s t
    apply String.ext
    simp only [substituirChar, String.data_append]
    have hs : ∀ u : String, u.toList = u.data := fun _ => rfl
    have hsing : (String.singleton c).data = [c] := by simp
    rw [hs, hs, hs, String.data_append, String.data_append, hsing,
      substChar_append, substChar_append]
    simp [substChar]
  · intro ts
    with_unfolding_all rfl

theorem substChar_sem_ocorrencia (c : Char) (rep : List Char)
    (l : List Char) (h : c ∉ l) : substChar c rep l = l := by
  induction l with
  | nil => rfl
  | cons d resto ih =>
    simp only [List.mem_cons, not_or] at h
    have hdc : ¬ d = c := fun hh => h.1 hh.symm
    simp [substChar, hdc, ih h.2]

theorem substituirChar_sem_ocorrencia (c : Char) (rep u : String)
    (h : c ∉ u.data) : substituirChar c rep u = u := by
  apply String.ext
  exact substChar_sem_ocorrencia c rep.toList u.data h

theorem trocaPotencia_cons (d : Char) (l : List Char) (hd : d ≠ '*') :
    trocaPotencia (d :: l) = d :: trocaPotencia l := by
  cases l with
  | nil => rfl
  | cons e r => simp [trocaPotencia, hd]

theorem trocaPotencia_substChar (l : List Char) (h : '*' ∉ l) :
    trocaPotencia (substChar '^' ['*', '*'] l) = l := by
  induction l with
  | nil => rfl
  | cons d resto ih =>
    simp only [List.mem_cons, not_or] at h
    by_cases hcar : d = '^'
    · subst hcar
      simp only [substChar, if_pos rfl, List.cons_append, List.nil_append]
      simp [trocaPotencia, ih h.2]
    · simp only [substChar, if_neg hcar, List.cons_append, List.nil_append]
      rw [trocaPotencia_cons d _ (fun hh => h.1 hh.symm), ih h.2]

theorem restaurar_substituir (u : String) (h : '*' ∉ u.data) :
    restaurarPotencia (substituirChar '^' "**" u) = u := by
  apply String.ext
  exact trocaPotencia_substChar u.data h

theorem getLast_historico_adicionar (st : Estado) (ts ex : String)
    (r : PyNum) (t : String) :
    (adicionarAoHistorico st ts ex r t).historico.getLast?
      = some { timestamp := ts, expressao := ex, resultado := r, tipo := t } := by
  simp only [adicionarAoHistorico]
  split_ifs with h1
  · have hne : st.historico ≠ [] := by
      intro hnil
      rw [hnil] at h1
      simp [maxHistorico] at h1
    rw [tail_append_unitario _ _ hne, List.getLast?_concat]
  · exact List.getLast?_concat _

/-- C7 counterexample: the claim says the recorded expression is the text
the user entered, but the source records the text after the `M`/`U`
substitutions: from the initial state (memory `0.0`), the input `M + 1` is
recorded as `0.0 + 1`, not as `M + 1`. -/
theorem c7_expressao_contra :
    (calcularExpressao estadoInicial "M + 1" "t").1.historico.map
        Entrada.expressao = ["0.0 + 1"]
    ∧ "0.0 + 1" ≠ "M + 1" :=
  ⟨by with_unfolding_all decide, by decide⟩

/-- C7 as amended: the history entry of a successful expression records the
substituted text with `**` turned back into `^`; this equals the user's
stripped input exactly when that input contains no `M`, no `U` and no `*`
(a `^` survives the round trip).  When the input contains `M`, `U` or
`**`, the recorded text differs from what was entered, as the
counterexample shows. -/
theorem c7_expressao_corrigido (st : Estado) (s ts : String)
    (hM : 'M' ∉ s.trim.data) (hU : 'U' ∉ s.trim.data)
    (hS : '*' ∉ s.trim.data)
    (hOk : ehOk (calcularExpressao st s ts).2 = true) :
    ((calcularExpressao st s ts).1.historico.getLast?).map Entrada.expressao
      = some s.trim := by
  have hsub : substituirChar 'U' (pyStrUltimo st.ultimoResultado)
      (substituirChar 'M' (pyStr st.memoria) s.trim) = s.trim := by
    rw [substituirChar_sem_ocorrencia 'M' _ _ hM,
      substituirChar_sem_ocorrencia 'U' _ _ hU]
  by_cases hv : s.trim = ""
  · simp only [calcularExpressao, if_pos hv] at hOk
    simp [ehOk] at hOk
  · simp only [calcularExpressao, if_neg hv, hsub] at hOk ⊢
    cases hav : avaliar (substituirChar '^' "**" s.trim) with
    | error e =>
      rw [hav] at hOk
      simp [ehOk] at hOk
    | ok v =>
      simp only [getLast_historico_adicionar, Option.map_some']
      rw [restaurar_substituir _ hS]

/-- Witness for C7 as amended: the input `2 + 3` contains no `M`, `U` or
`*`, evaluates successfully, and is recorded verbatim. -/
theorem c7_expressao_corrigido_witness :
    ((calcularExpressao estadoInicial "2 + 3" "t").1.historico.getLast?).map
        Entrada.expressao = some ("2 + 3".trim) :=
  c7_expressao_corrigido estadoInicial "2 + 3" "t"
    (by with_unfolding_all decide) (by with_unfolding_all decide)
    (by with_unfolding_all decide) (by with_unfolding_all decide)

/-- C8 counterexample: the claim says no rounding happens beyond 10-digit
truncation, but `f"{num:.10f}"` rounds: at `2/3` the source renders
`0.6666666667` (rounded up), while truncation to 10 digits would give
`0.6666666666`. -/
theorem c8_formatador_contra :
    formatarNumero (.float (2 / 3)) = "0.6666666667"
    ∧ "0.6666666667" ≠ "0.6666666666" :=
  ⟨by with_unfolding_all decide, by decide⟩

/-- C8 as amended: the formatter renders a mathematically integral value
without decimal point or fractional digits (for `int`s and for integral
floats alike), and otherwise renders at most 10 fractional digits with
trailing zeros and a trailing point stripped — but the 10-digit step
rounds (ties to even) as Python's fixed-precision formatting does, rather
than truncating: `format(3.0) = "3"`,
`format(3.14159265358979) = "3.1415926536"`,
`format(2/3) = "0.6666666667"`. -/
theorem c8_formatador_corrigido :
    (∀ n : Int, formatarNumero (.int n) = toString n)
    ∧ (∀ n : Int, formatarNumero (.float (n : ℚ)) = toString n)
    ∧ formatarNumero (.float 3) = "3"
    ∧ formatarNumero (.float (314159265358979 / 100000000000000)) = "3.1415926536"
    ∧ formatarNumero (.float (2 / 3)) = "0.6666666667" := by
  refine ⟨fun n => rfl, fun n => ?_, ?_, ?_, ?_⟩
  · simp [formatarNumero, Rat.den_intCast, Rat.num_intCast]
  · with_unfolding_all decide
  · with_unfolding_all decide
  · with_unfolding_all decide

theorem somaContagens_cons (a : String × Nat) (l : List (String × Nat)) :
    somaContagens (a :: l) = a.2 + somaContagens l := by
  simp [somaContagens]

theorem mem_insereDesc (x z : String × Nat) (l : List (String × Nat))
    (h : z ∈ insereDesc x l) : z = x ∨ z ∈ l := by
  induction l with
  | nil => simpa [insereDesc] using h
  | cons y resto ih =>
    by_cases hc : x.2 ≤ y.2
    · simp only [insereDesc, if_pos hc] at h
      rcases List.mem_cons.mp h with h1 | h2
      · right
        exact List.mem_cons.mpr (Or.inl h1)
      · rcases ih h2 with h3 | h4
        · left; exact h3
        · right; exact List.mem_cons.mpr (Or.inr h4)
    · simp only [insereDesc, if_neg hc] at h
      rcases List.mem_cons.mp h with h1 | h2
      · left; exact h1
      · right; exact h2

theorem pairwise_insereDesc (x : String × Nat) (l : List (String × Nat))
    (h : l.Pairwise (fun a b => b.2 ≤ a.2)) :
    (insereDesc x l).Pairwise (fun a b => b.2 ≤ a.2) := by
  induction l with
  | nil => simp [insereDesc]
  | cons y resto ih =>
    rw [List.pairwise_cons] at h
    by_cases hc : x.2 ≤ y.2
    · simp only [insereDesc, if_pos hc]
      rw [List.pairwise_cons]
      refine ⟨fun z hz => ?_, ih h.2⟩
      rcases mem_insereDesc x z resto hz with h1 | h2
      · rw [h1]; exact hc
      · exact h.1 z h2
    · simp only [insereDesc, if_neg hc]
      rw [List.pairwise_cons]
      refine ⟨fun z hz => ?_, ?_⟩
      · rcases List.mem_cons.mp hz with h1 | h2
        · rw [h1]; omega
        · have := h.1 z h2; omega
      · rw [List.pairwise_cons]; exact h

theorem pairwise_ordenaDesc_aux (l acc : List (String × Nat))
    (h : acc.Pairwise (fun a b => b.2 ≤ a.2)) :
    (l.foldl (fun acc x => insereDesc x acc) acc).Pairwise
      (fun a b => b.2 ≤ a.2) := by
  induction l generalizing acc with
  | nil => exact h
  | cons x resto ih => exact ih _ (pairwise_insereDesc x acc h)

theorem somaContagens_insereDesc (x : String × Nat)
    (l : List (String × Nat)) :
    somaContagens (insereDesc x l) = x.2 + somaContagens l := by
  induction l with
  | nil => simp [insereDesc, somaContagens]
  | cons y resto ih =>
    by_cases hc : x.2 ≤ y.2
    · simp only [insereDesc, if_pos hc]
      rw [somaContagens_cons, ih, somaContagens_cons]
      omega
    · simp only [insereDesc, if_neg hc]
      rw [somaContagens_cons, somaContagens_cons]

theorem somaContagens_ordenaDesc_aux (l acc : List (String × Nat)) :
    somaContagens (l.foldl (fun acc x => insereDesc x acc) acc)
      = somaContagens l + somaContagens acc := by
  induction l generalizing acc with
  | nil => simp [somaContagens]
  | cons x resto ih =>
    rw [List.foldl_cons, ih, somaContagens_insereDesc, somaContagens_cons]
    omega

theorem somaContagens_incrementaTipo (l : List (String × Nat)) (t : String) :
    somaContagens (incrementaTipo l t) = somaContagens l + 1 := by
  induction l with
  | nil => simp [incrementaTipo, somaContagens]
  | cons kv resto ih =>
    by_cases hc : kv.1 = t
    · simp only [incrementaTipo, if_pos hc]
      rw [somaContagens_cons, somaContagens_cons]
      omega
    · simp only [incrementaTipo, if_neg hc]
      rw [somaContagens_cons, ih, somaContagens_cons]
      omega

theorem somaContagens_contarTipos_aux (tipos : List String)
    (acc : List (String × Nat)) :
    somaContagens (tipos.foldl incrementaTipo acc)
      = somaContagens acc + tipos.length := by
  induction tipos generalizing acc with
  | nil => simp
  | cons t resto ih =>
    rw [List.foldl_cons, ih, somaContagens_incrementaTipo, List.length_cons]
    omega

/-- C9 counterexample: the claim says ties are ordered by kind name, but
the source's stable sort keeps ties in first-seen order: a history holding
one `Soma` then one `Divisão` lists `Soma` first even though `Divisão`
precedes it alphabetically. -/
theorem c9_estatisticas_contra :
    operacoesPorTipo
        [⟨"t1", "1 + 1", .int 2, tipoSoma⟩,
         ⟨"t2", "4 ÷ 2", .float 2, tipoDivisao⟩]
      = [(tipoSoma, 1), (tipoDivisao, 1)]
    ∧ tipoDivisao < tipoSoma :=
  ⟨by with_unfolding_all decide, by with_unfolding_all decide⟩

/-- C9 as amended: the per-kind statistics tally the current history
grouped by kind (the counts sum to the history length), sorted by
descending count — but ties keep the order in which each kind first
appears in the history (Python's `sorted` is stable and the tally dict
preserves first-seen order), so tied output depends on insertion order
instead of being ordered by kind name. -/
theorem c9_estatisticas_corrigido :
    (∀ hist : List Entrada,
        (operacoesPorTipo hist).Pairwise (fun a b => b.2 ≤ a.2))
    ∧ (∀ hist : List Entrada,
        somaContagens (operacoesPorTipo hist) = hist.length)
    ∧ operacoesPorTipo
          [⟨"t1", "e1", .int 2, tipoSoma⟩, ⟨"t2", "e2", .int 4, tipoDivisao⟩]
        = [(tipoSoma, 1), (tipoDivisao, 1)]
    ∧ operacoesPorTipo
          [⟨"t1", "e1", .int 4, tipoDivisao⟩, ⟨"t2", "e2", .int 2, tipoSoma⟩]
        = [(tipoDivisao, 1), (tipoSoma, 1)] := by
  refine ⟨fun hist => ?_, fun hist => ?_, by decide, by decide⟩
  · exact pairwise_ordenaDesc_aux _ _ (List.Pairwise.nil)
  · rw [operacoesPorTipo, ordenaDesc, somaContagens_ordenaDesc_aux,
      contarTipos, somaContagens_contarTipos_aux]
    simp [somaContagens]

/-- C10: expression evaluation is atomic on failure: whenever
`calcular_expressao` does not succeed — empty input, division by zero, or
a malformed expression — the session state (memory, last result, history,
counter) is exactly what it was before the call. -/
theorem c10_atomicidade (st : Estado) (entrada ts : String)
    (h : ehOk (calcularExpressao st entrada ts).2 = false) :
    (calcularExpressao st entrada ts).1 = st := by
  by_cases hv : entrada.trim = ""
  · simp [calcularExpressao, hv]
  · simp only [calcularExpressao, if_neg hv] at h ⊢
    cases hav : avaliar (substituirChar '^' "**"
        (substituirChar 'U' (pyStrUltimo st.ultimoResultado)
          (substituirChar 'M' (pyStr st.memoria) entrada.trim))) with
    | error e => simp
    | ok v =>
      rw [hav] at h
      simp [ehOk] at h

/-- Witness for C10: evaluating `5 / 0` from the initial state fails with
division by zero and leaves the initial state untouched. -/
theorem c10_atomicidade_witness :
    (calcularExpressao estadoInicial "5 / 0" "t").1 = estadoInicial :=
  c10_atomicidade estadoInicial "5 / 0" "t" (by with_unfolding_all decide)

end Calculadora
